import Mathlib

/-!
Verification of the fortuna-internal-sdk client library.

The development shallowly embeds `src/fortuna_archetype_client/client.py` and
`src/fortuna_archetype_client/exceptions.py`: JSON values, the canonical
(sorted-key) serialization of `json.dumps`, UTF-8 encoding, SHA-256, HMAC, the
signature generation of `ArchetypeClient._generate_signature`, the header
construction of `_get_headers`, and the request pipeline of `_make_request`
with the HTTP exchange injected as an explicit argument.

All definitions use structural recursion (fuel where needed) so that concrete
inputs evaluate inside the kernel.
-/

set_option maxRecDepth 20000

namespace Fortuna

/-- JSON values, as produced by parsing or passed as request bodies.
Objects keep their member list in insertion order, exactly like a Python
`dict`; numbers are modeled as integers. -/
inductive Json where
  | null
  | bool (b : Bool)
  | num (n : Int)
  | str (s : String)
  | arr (elems : List Json)
  | obj (members : List (String × Json))

/-- Hex digit character for a value below 16 (lowercase, as Python emits). -/
def hexDigit (n : Nat) : Char :=
  Char.ofNat (if n < 10 then 48 + n else 87 + n)

/-- Four lowercase hex digits, as in a Python `\uXXXX` escape. -/
def hex4 (n : Nat) : String :=
  String.mk [hexDigit (n / 4096 % 16), hexDigit (n / 256 % 16),
             hexDigit (n / 16 % 16), hexDigit (n % 16)]

/-- Escape of one character inside a JSON string, following the default
(`ensure_ascii=True`) encoder of Python `json.dumps`: the two-character
escapes for quote, backslash and the usual control characters, `\uXXXX` for
the other control characters and for every non-ASCII character, surrogate
pairs above U+FFFF, and the character itself otherwise. -/
def escapeChar (c : Char) : String :=
  let n := c.toNat
  if n = 34 then "\\\""
  else if n = 92 then "\\\\"
  else if n = 8 then "\\b"
  else if n = 12 then "\\f"
  else if n = 10 then "\\n"
  else if n = 13 then "\\r"
  else if n = 9 then "\\t"
  else if n < 32 ∨ 126 < n then
    if n ≤ 65535 then "\\u" ++ hex4 n
    else "\\u" ++ hex4 (55296 + (n - 65536) / 1024) ++ "\\u" ++ hex4 (56320 + (n - 65536) % 1024)
  else String.singleton c

/-- JSON string literal: quotes around the escaped characters, as in
`json.encoder.py_encode_basestring_ascii`. -/
def encodeString (s : String) : String :=
  "\"" ++ String.join (s.data.map escapeChar) ++ "\""

mutual

/-- Serialization of `json.dumps` with the default separators `", "` and
`": "` and members in insertion order. -/
def dumps : Json → String
  | .null => "null"
  | .bool true => "true"
  | .bool false => "false"
  | .num n => toString n
  | .str s => encodeString s
  | .arr xs => "[" ++ String.intercalate ", " (dumpsList xs) ++ "]"
  | .obj l => "\x7b" ++ String.intercalate ", " (dumpsMembers l) ++ "\x7d"

/-- Item strings of an array. -/
def dumpsList : List Json → List String
  | [] => []
  | x :: xs => dumps x :: dumpsList xs

/-- Item strings of an object, `"key": value` with the default separator. -/
def dumpsMembers : List (String × Json) → List String
  | [] => []
  | (k, v) :: l => (encodeString k ++ ": " ++ dumps v) :: dumpsMembers l

end

/-- Lexicographic strict comparison of character lists by code point,
modeling the `<` of Python strings. -/
def strLtB : List Char → List Char → Bool
  | _, [] => false
  | [], _ :: _ => true
  | a :: as, b :: bs =>
    if a.toNat < b.toNat then true
    else if b.toNat < a.toNat then false
    else strLtB as bs

/-- Python string `<` on the key field of two object members. -/
def keyLt (a b : String × Json) : Bool := strLtB a.1.data b.1.data

/-- Insert a member before the first strictly greater key (so after equal
keys, which keeps the sort stable, like Python sort). -/
def ordInsertKey (a : String × Json) : List (String × Json) → List (String × Json)
  | [] => [a]
  | b :: l => if keyLt a b then a :: b :: l else b :: ordInsertKey a l

/-- Sort the members of an object by key, as Python `sorted` does on the
items of a dict (dict keys are unique, so only keys are ever compared and
the result is the unique key-sorted arrangement). -/
def sortKeys : List (String × Json) → List (String × Json)
  | [] => []
  | a :: l => ordInsertKey a (sortKeys l)

mutual

/-- Key-canonical form of a JSON value: the members of every object, at
every nesting level, sorted by key.  Serializing the result in order is
exactly the emission of `json.dumps(x, sort_keys=True)`, which sorts the
items of each dict it reaches. -/
def canonicalize : Json → Json
  | .null => .null
  | .bool b => .bool b
  | .num n => .num n
  | .str s => .str s
  | .arr xs => .arr (canonicalizeList xs)
  | .obj l => .obj (sortKeys (canonicalizeMembers l))

/-- `canonicalize` on every element of an array. -/
def canonicalizeList : List Json → List Json
  | [] => []
  | x :: xs => canonicalize x :: canonicalizeList xs

/-- `canonicalize` on every value of an object. -/
def canonicalizeMembers : List (String × Json) → List (String × Json)
  | [] => []
  | (k, v) :: l => (k, canonicalize v) :: canonicalizeMembers l

end

/-- `json.dumps(x, sort_keys=True)`: serialize with the members of every
object in sorted key order. -/
def dumpsSorted (j : Json) : String := dumps (canonicalize j)

/-- UTF-8 encoding of one character (code point), as Python `str.encode`. -/
def utf8Char (c : Char) : List Nat :=
  let n := c.toNat
  if n < 128 then [n]
  else if n < 2048 then [192 + n / 64, 128 + n % 64]
  else if n < 65536 then [224 + n / 4096, 128 + n / 64 % 64, 128 + n % 64]
  else [240 + n / 262144, 128 + n / 4096 % 64, 128 + n / 64 % 64, 128 + n % 64]

/-- UTF-8 encoding of a string as a byte list, modeling `s.encode("utf-8")`. -/
def utf8 (s : String) : List Nat :=
  s.data.foldr (fun c acc => utf8Char c ++ acc) []

/-- The SHA-256 round constants (fractional parts of the cube roots of the
first 64 primes, 32 bits each). -/
def shaK : List Nat :=
  [1116352408, 1899447441, 3049323471, 3921009573, 961987163, 1508970993,
   2453635748, 2870763221, 3624381080, 310598401, 607225278, 1426881987,
   1925078388, 2162078206, 2614888103, 3248222580, 3835390401, 4022224774,
   264347078, 604807628, 770255983, 1249150122, 1555081692, 1996064986,
   2554220882, 2821834349, 2952996808, 3210313671, 3336571891, 3584528711,
   113926993, 338241895, 666307205, 773529912, 1294757372, 1396182291,
   1695183700, 1986661051, 2177026350, 2456956037, 2730485921, 2820302411,
   3259730800, 3345764771, 3516065817, 3600352804, 4094571909, 275423344,
   430227734, 506948616, 659060556, 883997877, 958139571, 1322822218,
   1537002063, 1747873779, 1955562222, 2024104815, 2227730452, 2361852424,
   2428436474, 2756734187, 3204031479, 3329325298]

/-- The SHA-256 initial hash state. -/
def shaH0 : List Nat :=
  [1779033703, 3144134277, 1013904242, 2773480762, 1359893119, 2600822924,
   528734635, 1541459225]

/-- Rotate a 32-bit word right by `r` bits. -/
def rotr (x r : Nat) : Nat := x / 2 ^ r + x % 2 ^ r * 2 ^ (32 - r)

/-- Bitwise complement of a 32-bit word. -/
def compl32 (x : Nat) : Nat := 4294967295 - x

/-- Group a byte list into big-endian 32-bit words. -/
def bytesToWords : List Nat → List Nat
  | a :: b :: c :: d :: rest => (a * 16777216 + b * 65536 + c * 256 + d) :: bytesToWords rest
  | _ => []

/-- Big-endian bytes of one 32-bit word. -/
def wordBytes (w : Nat) : List Nat :=
  [w / 16777216 % 256, w / 65536 % 256, w / 256 % 256, w % 256]

/-- Message-schedule extension: prepend `n` further words to the reversed
schedule (most recent first). -/
def extendSchedule : Nat → List Nat → List Nat
  | 0, rev => rev
  | n + 1, rev =>
    let w15 := rev.getD 14 0
    let w2 := rev.getD 1 0
    let w16 := rev.getD 15 0
    let w7 := rev.getD 6 0
    let s0 := Nat.xor (Nat.xor (rotr w15 7) (rotr w15 18)) (w15 / 2 ^ 3)
    let s1 := Nat.xor (Nat.xor (rotr w2 17) (rotr w2 19)) (w2 / 2 ^ 10)
    extendSchedule n ((w16 + s0 + w7 + s1) % 4294967296 :: rev)

/-- The 64-word message schedule of one SHA-256 block. -/
def schedule (ws : List Nat) : List Nat :=
  (extendSchedule 48 ws.reverse).reverse

/-- One SHA-256 compression round on the eight working variables. -/
def compressStep (st : Nat × Nat × Nat × Nat × Nat × Nat × Nat × Nat) (kw : Nat × Nat) :
    Nat × Nat × Nat × Nat × Nat × Nat × Nat × Nat :=
  let (a, b, c, d, e, f, g, h) := st
  let s1 := Nat.xor (Nat.xor (rotr e 6) (rotr e 11)) (rotr e 25)
  let ch := Nat.xor (Nat.land e f) (Nat.land (compl32 e) g)
  let temp1 := (h + s1 + ch + kw.1 + kw.2) % 4294967296
  let s0 := Nat.xor (Nat.xor (rotr a 2) (rotr a 13)) (rotr a 22)
  let maj := Nat.xor (Nat.xor (Nat.land a b) (Nat.land a c)) (Nat.land b c)
  let temp2 := (s0 + maj) % 4294967296
  ((temp1 + temp2) % 4294967296, a, b, c, (d + temp1) % 4294967296, e, f, g)

/-- Compress one 64-byte block into the running hash state. -/
def compressBlock (h : List Nat) (block : List Nat) : List Nat :=
  let w := schedule (bytesToWords block)
  let start := (h.getD 0 0, h.getD 1 0, h.getD 2 0, h.getD 3 0,
                h.getD 4 0, h.getD 5 0, h.getD 6 0, h.getD 7 0)
  let fin := (shaK.zip w).foldl compressStep start
  let (a, b, c, d, e, f, g, hh) := fin
  [(h.getD 0 0 + a) % 4294967296, (h.getD 1 0 + b) % 4294967296,
   (h.getD 2 0 + c) % 4294967296, (h.getD 3 0 + d) % 4294967296,
   (h.getD 4 0 + e) % 4294967296, (h.getD 5 0 + f) % 4294967296,
   (h.getD 6 0 + g) % 4294967296, (h.getD 7 0 + hh) % 4294967296]

/-- Split into 64-byte blocks; the fuel is instantiated with the length. -/
def chunks64 : Nat → List Nat → List (List Nat)
  | 0, _ => []
  | _, [] => []
  | fuel + 1, l => l.take 64 :: chunks64 fuel (l.drop 64)

/-- Big-endian 8-byte encoding of the bit length. -/
def lenBytes (n : Nat) : List Nat :=
  [n / 2 ^ 56 % 256, n / 2 ^ 48 % 256, n / 2 ^ 40 % 256, n / 2 ^ 32 % 256,
   n / 2 ^ 24 % 256, n / 2 ^ 16 % 256, n / 2 ^ 8 % 256, n % 256]

/-- SHA-256 of a byte list, as `hashlib.sha256(...).digest()`. -/
def sha256 (msg : List Nat) : List Nat :=
  let L := msg.length
  let padded := msg ++ 128 :: List.replicate ((119 - L % 64) % 64) 0 ++ lenBytes (8 * L)
  let fin := (chunks64 padded.length padded).foldl compressBlock shaH0
  fin.foldr (fun w acc => wordBytes w ++ acc) []

/-- Lowercase hex rendering of a byte list, as `.hexdigest()`. -/
def hexdigest (bytes : List Nat) : String :=
  String.mk (bytes.foldr (fun b acc => hexDigit (b / 16) :: hexDigit (b % 16) :: acc) [])

/-- HMAC-SHA256 of a message under a key, as `hmac.new(key, msg, hashlib.sha256)`
(block size 64; an over-long key is hashed first). -/
def hmacSha256 (key msg : List Nat) : List Nat :=
  let k0 := if 64 < key.length then sha256 key else key
  let kpad := k0 ++ List.replicate (64 - k0.length) 0
  sha256 (kpad.map (Nat.xor 92) ++ sha256 (kpad.map (Nat.xor 54) ++ msg))

/-- The base exception of `exceptions.py`.  `ArchetypeAPIError.__init__`
stores message, HTTP status code (0 meaning transport-level failure) and an
optional server error code; `is_auth` records whether the object was built
by the `AuthenticationError` subclass.  The message field holds the JSON
value Python would store (a string in every case but the `errmsg`
passthrough). -/
structure ArchetypeAPIError where
  message : Json
  status_code : Nat
  error_code : Option Json
  is_auth : Bool

/-- `AuthenticationError.__init__`: calls the base constructor with the
given message and `status_code=401` (and no error code). -/
def AuthenticationError (message : String) : ArchetypeAPIError :=
  { message := .str message, status_code := 401, error_code := none, is_auth := true }

/-- The client state set up by `ArchetypeClient.__init__`. -/
structure ArchetypeClient where
  base_url : String
  api_key : String
  api_secret : String
  timeout : Nat

/-- Python `base_url.rstrip("/")`: remove every trailing slash. -/
def rstripSlashes (s : String) : String :=
  String.mk ((s.data.reverse.dropWhile (fun c => c.toNat = 47)).reverse)

/-- `ArchetypeClient.__init__(base_url, api_key, api_secret, timeout=30)`:
stores the credentials and timeout, normalizing the base URL with
`rstrip("/")` once at construction. -/
def ArchetypeClient.init (base_url api_key api_secret : String) (timeout : Nat) :
    ArchetypeClient :=
  { base_url := rstripSlashes base_url, api_key := api_key,
    api_secret := api_secret, timeout := timeout }

/-- Python `method.upper()` (HTTP methods are ASCII, where `Char.toUpper`
agrees with `str.upper`): uppercase every character. -/
def pyUpper (s : String) : String := String.mk (s.data.map Char.toUpper)

/-- The `message_parts` list of `_generate_signature`: uppercased method,
path and timestamp, plus the body when `if body:` holds, that is when the
body is neither `None` nor the empty string. -/
def messageParts (method path timestamp : String) (body : Option String) : List String :=
  let parts := [pyUpper method, path, timestamp]
  match body with
  | some b => if b = "" then parts else parts ++ [b]
  | none => parts

/-- The canonical message `_generate_signature` signs: the parts joined
with `"|"`. -/
def signMessage (method path timestamp : String) (body : Option String) : String :=
  String.intercalate "|" (messageParts method path timestamp body)

/-- `ArchetypeClient._generate_signature`: lowercase-hex HMAC-SHA256 of the
UTF-8 canonical message, keyed by the UTF-8 API secret. -/
def _generate_signature (c : ArchetypeClient) (method path timestamp : String)
    (body : Option String) : String :=
  hexdigest (hmacSha256 (utf8 c.api_secret) (utf8 (signMessage method path timestamp body)))

/-- `ArchetypeClient._get_headers`; the timestamp `str(int(time.time()))`
is injected as an argument to keep the embedding pure. -/
def _get_headers (c : ArchetypeClient) (method path : String) (body : Option String)
    (timestamp : String) : List (String × String) :=
  [("X-API-Key", c.api_key),
   ("X-Timestamp", timestamp),
   ("X-Signature", _generate_signature c method path timestamp body),
   ("Content-Type", "application/json"),
   ("Accept", "application/json")]

/-- The `body_str` computed in `_make_request`: `None` unless `if json_data:`
holds (the dict is given and non-empty), else the sorted-key serialization
`json.dumps(json_data, sort_keys=True)`. -/
def signedBodyStr (json_data : Option (List (String × Json))) : Option String :=
  match json_data with
  | some [] => none
  | some (kv :: l) => some (dumpsSorted (.obj (kv :: l)))
  | none => none

/-- The body that the `requests` library transmits for the `json=json_data`
keyword: `requests.models.PreparedRequest.prepare_body` serializes a
non-`None` value with `json.dumps` (insertion order, no key sorting). -/
def requestsJsonBody (json_data : Option (List (String × Json))) : Option String :=
  match json_data with
  | some l => some (dumps (.obj l))
  | none => none

/-- The outgoing HTTP request as handed to `requests.request` inside
`_make_request`. -/
structure SentRequest where
  method : String
  url : String
  headers : List (String × String)
  params : Option (List (String × String))
  body : Option String

/-- The request `_make_request` builds and sends: url is the concatenation
of the stored base URL and the path, the headers come from `_get_headers`
over the signed body string, the query parameters are passed through
untouched, and the transmitted body is the `requests` serialization of
`json_data`. -/
def sentRequest (c : ArchetypeClient) (method path : String)
    (params : Option (List (String × String)))
    (json_data : Option (List (String × Json))) (timestamp : String) : SentRequest :=
  { method := method
    url := c.base_url ++ path
    headers := _get_headers c method path (signedBodyStr json_data) timestamp
    params := params
    body := requestsJsonBody json_data }

/-- An HTTP response: status code and parsed JSON-object body (`none`
models empty content; the API serves JSON objects). -/
structure HttpResponse where
  status_code : Nat
  content : Option (List (String × Json))

/-- What the HTTP exchange produces: a response, or a raised
`requests.exceptions.RequestException` carrying a description. -/
inductive HttpOutcome where
  | response (r : HttpResponse)
  | requestException (description : String)

/-- The text of the `json.JSONDecodeError` raised by `response.json()` on
empty content. -/
def jsonDecodeErrorText : String := "Expecting value: line 1 column 1 (char 0)"

/-- `ArchetypeClient._make_request`, with the HTTP exchange injected as
`respond`: build the request, send it, and translate the outcome — 401
becomes `AuthenticationError` with a fixed message, any other status at
least 400 becomes `ArchetypeAPIError` with message from the `errmsg` field
of the parsed body (the empty mapping when the body is empty, default
`API error: <status>`) and error code from `errorcode`, a transport
exception becomes a status-0 `ArchetypeAPIError`, and otherwise the parsed
body is returned. -/
def _make_request (c : ArchetypeClient) (method path : String)
    (params : Option (List (String × String)))
    (json_data : Option (List (String × Json))) (timestamp : String)
    (respond : SentRequest → HttpOutcome) :
    Except ArchetypeAPIError (List (String × Json)) :=
  match respond (sentRequest c method path params json_data timestamp) with
  | .requestException d =>
      .error { message := .str ("Request failed: " ++ d), status_code := 0,
               error_code := none, is_auth := false }
  | .response resp =>
      if resp.status_code = 401 then
        .error (AuthenticationError "Authentication failed: Invalid API key or signature")
      else if 400 ≤ resp.status_code then
        let error_data := resp.content.getD []
        .error { message := (error_data.lookup "errmsg").getD
                   (.str ("API error: " ++ toString resp.status_code)),
                 status_code := resp.status_code,
                 error_code := error_data.lookup "errorcode",
                 is_auth := false }
      else
        match resp.content with
        | some j => .ok j
        | none => .error { message := .str ("Request failed: " ++ jsonDecodeErrorText),
                           status_code := 0, error_code := none, is_auth := false }

mutual

/-- Two JSON values that are the same mapping up to the insertion order of
keys at every nesting level: identical leaves, elementwise-related arrays,
and objects whose (duplicate-free) member lists match up to value
equivalence and a permutation. -/
inductive SameMapping : Json → Json → Prop where
  | null : SameMapping .null .null
  | bool (b : Bool) : SameMapping (.bool b) (.bool b)
  | num (n : Int) : SameMapping (.num n) (.num n)
  | str (s : String) : SameMapping (.str s) (.str s)
  | arr {xs ys : List Json} : SameElems xs ys → SameMapping (.arr xs) (.arr ys)
  | obj {l1 mid l2 : List (String × Json)} :
      (l1.map Prod.fst).Nodup → SameMembers l1 mid → mid.Perm l2 →
      SameMapping (.obj l1) (.obj l2)

/-- Elementwise `SameMapping` on arrays. -/
inductive SameElems : List Json → List Json → Prop where
  | nil : SameElems [] []
  | cons {x y : Json} {xs ys : List Json} :
      SameMapping x y → SameElems xs ys → SameElems (x :: xs) (y :: ys)

/-- Pointwise key-equal, value-equivalent member lists. -/
inductive SameMembers : List (String × Json) → List (String × Json) → Prop where
  | nil : SameMembers [] []
  | cons (k : String) {v w : Json} {l1 l2 : List (String × Json)} :
      SameMapping v w → SameMembers l1 l2 →
      SameMembers ((k, v) :: l1) ((k, w) :: l2)

end

/-- Non-strict key order, `a` at most `b`: `b` is not strictly below `a`. -/
def keyLe (a b : String × Json) : Prop := keyLt b a = false

/-- Member list sorted by key. -/
def SortedKeys (l : List (String × Json)) : Prop := l.Pairwise keyLe

/-- The contribution of the optional body to the canonical message under
the code: a `"|"`-prefixed part exactly when `if body:` holds. -/
def bodyPart (body : Option String) : String :=
  match body with
  | some b => if b = "" then "" else "|" ++ b
  | none => ""

/-- The signature exactly as claimed: lowercase-hex HMAC-SHA256, keyed by
the UTF-8 secret, of the UTF-8 join with `"|"` of uppercased method, path,
timestamp, and — whenever a body is present — the body string. -/
def specSignature (method path timestamp : String) (body : Option String)
    (secret : String) : String :=
  hexdigest (hmacSha256 (utf8 secret)
    (utf8 (String.intercalate "|"
      ([pyUpper method, path, timestamp] ++
        (match body with | some b => [b] | none => [])))))

/-- The claimed signature amended at the empty body: the fourth part is
joined only when the body is present and non-empty. -/
def amendedSignature (method path timestamp : String) (body : Option String)
    (secret : String) : String :=
  hexdigest (hmacSha256 (utf8 secret)
    (utf8 (String.intercalate "|"
      ([pyUpper method, path, timestamp] ++
        (match body with | some b => if b = "" then [] else [b] | none => [])))))

/-- Two signing-input tuples that differ in exactly one of the five
components method, path, timestamp, body, secret. -/
def DiffExactlyOne (m p t : String) (b : Option String) (s : String)
    (m2 p2 t2 : String) (b2 : Option String) (s2 : String) : Prop :=
  (m ≠ m2 ∧ p = p2 ∧ t = t2 ∧ b = b2 ∧ s = s2) ∨
  (m = m2 ∧ p ≠ p2 ∧ t = t2 ∧ b = b2 ∧ s = s2) ∨
  (m = m2 ∧ p = p2 ∧ t ≠ t2 ∧ b = b2 ∧ s = s2) ∨
  (m = m2 ∧ p = p2 ∧ t = t2 ∧ b ≠ b2 ∧ s = s2) ∨
  (m = m2 ∧ p = p2 ∧ t = t2 ∧ b = b2 ∧ s ≠ s2)

/-! Order lemmas for the key comparison. -/

theorem strLtB_asymm : ∀ x y : List Char, strLtB x y = true → strLtB y x = false := by
  intro x
  induction x with
  | nil =>
    intro y h
    cases y with
    | nil => simp [strLtB] at h
    | cons b bs => simp [strLtB]
  | cons a as ih =>
    intro y h
    cases y with
    | nil => simp [strLtB] at h
    | cons b bs =>
      simp only [strLtB] at h ⊢
      rcases Nat.lt_trichotomy a.toNat b.toNat with hlt | heq | hgt
      · simp [hlt, Nat.lt_asymm hlt]
      · rw [heq] at h ⊢
        simp only [Nat.lt_irrefl, if_false] at h ⊢
        exact ih bs h
      · simp [hgt, Nat.lt_asymm hgt] at h

theorem strLtB_trans :
    ∀ x y z : List Char, strLtB x y = true → strLtB y z = true → strLtB x z = true := by
  intro x
  induction x with
  | nil =>
    intro y z hxy hyz
    cases z with
    | nil =>
      cases y with
      | nil => simp [strLtB] at hxy
      | cons b bs => simp [strLtB] at hyz
    | cons c cs => simp [strLtB]
  | cons a as ih =>
    intro y z hxy hyz
    cases y with
    | nil => simp [strLtB] at hxy
    | cons b bs =>
      cases z with
      | nil => simp [strLtB] at hyz
      | cons c cs =>
        simp only [strLtB] at hxy hyz ⊢
        rcases Nat.lt_trichotomy a.toNat b.toNat with h1 | h1 | h1
        · rcases Nat.lt_trichotomy b.toNat c.toNat with h2 | h2 | h2
          · have h3 : a.toNat < c.toNat := Nat.lt_trans h1 h2
            simp [h3]
          · have h3 : a.toNat < c.toNat := by omega
            simp [h3]
          · simp [Nat.lt_asymm h2, h2] at hyz
        · rw [h1] at hxy
          simp only [Nat.lt_irrefl, if_false] at hxy
          rcases Nat.lt_trichotomy b.toNat c.toNat with h2 | h2 | h2
          · have h3 : a.toNat < c.toNat := by omega
            simp [h3]
          · have h3 : a.toNat = c.toNat := by omega
            rw [h3]
            simp only [Nat.lt_irrefl, if_false]
            rw [h2] at hyz
            simp only [Nat.lt_irrefl, if_false] at hyz
            exact ih bs cs hxy hyz
          · simp [Nat.lt_asymm h2, h2] at hyz
        · simp [Nat.lt_asymm h1, h1] at hxy

theorem strLtB_eq_of_not :
    ∀ x y : List Char, strLtB x y = false → strLtB y x = false → x = y := by
  intro x
  induction x with
  | nil =>
    intro y h1 _
    cases y with
    | nil => rfl
    | cons b bs => simp [strLtB] at h1
  | cons a as ih =>
    intro y h1 h2
    cases y with
    | nil => simp [strLtB] at h2
    | cons b bs =>
      simp only [strLtB] at h1 h2
      rcases Nat.lt_trichotomy a.toNat b.toNat with hlt | heq | hgt
      · simp [hlt] at h1
      · have hab : a = b := by
          have h3 : Char.ofNat a.toNat = Char.ofNat b.toNat := by rw [heq]
          rwa [Char.ofNat_toNat, Char.ofNat_toNat] at h3
        subst hab
        simp only [Nat.lt_irrefl, if_false] at h1 h2
        rw [ih bs h1 h2]
      · simp [hgt] at h2

theorem keyLe_of_keyLt {a b : String × Json} (h : keyLt a b = true) : keyLe a b :=
  strLtB_asymm _ _ h

theorem keyLe_trans {a b c : String × Json} (h1 : keyLe a b) (h2 : keyLe b c) :
    keyLe a c := by
  unfold keyLe keyLt at h1 h2 ⊢
  by_cases hca : strLtB c.1.data a.1.data = true
  · by_cases hbc : strLtB b.1.data c.1.data = true
    · have h3 : strLtB b.1.data a.1.data = true := strLtB_trans _ _ _ hbc hca
      rw [h3] at h1; cases h1
    · have hbc2 : strLtB b.1.data c.1.data = false := by
        revert hbc; cases strLtB b.1.data c.1.data <;> simp
      have heq : b.1.data = c.1.data := strLtB_eq_of_not _ _ hbc2 h2
      rw [← heq] at hca
      rw [hca] at h1; cases h1
  · revert hca; cases strLtB c.1.data a.1.data <;> simp

/-! Insertion sort by key: permutation, sortedness, uniqueness. -/

theorem ordInsertKey_perm (a : String × Json) :
    ∀ l, (ordInsertKey a l).Perm (a :: l) := by
  intro l
  induction l with
  | nil => exact List.Perm.refl _
  | cons b l ih =>
    by_cases h : keyLt a b = true
    · simp [ordInsertKey, h]
    · simp only [ordInsertKey, h, if_false]
      exact (ih.cons b).trans (List.Perm.swap a b l)

theorem sortKeys_perm : ∀ l, (sortKeys l).Perm l := by
  intro l
  induction l with
  | nil => exact List.Perm.refl _
  | cons a l ih => exact (ordInsertKey_perm a (sortKeys l)).trans (ih.cons a)

theorem ordInsertKey_sorted (a : String × Json) :
    ∀ {l}, SortedKeys l → SortedKeys (ordInsertKey a l) := by
  intro l h
  induction l with
  | nil =>
    simp [ordInsertKey, SortedKeys]
  | cons b l ih =>
    rcases List.pairwise_cons.mp h with ⟨hb, hl⟩
    by_cases hab : keyLt a b = true
    · simp only [ordInsertKey, hab, if_true]
      refine List.Pairwise.cons ?_ h
      intro c hc
      rcases List.mem_cons.mp hc with rfl | hc
      · exact keyLe_of_keyLt hab
      · exact keyLe_trans (keyLe_of_keyLt hab) (hb c hc)
    · simp only [ordInsertKey, hab, if_false]
      refine List.Pairwise.cons ?_ (ih hl)
      intro c hc
      have hc2 := (ordInsertKey_perm a l).mem_iff.mp hc
      rcases List.mem_cons.mp hc2 with rfl | hc2
      · show keyLt c b = false
        revert hab; cases keyLt c b <;> simp
      · exact hb c hc2

theorem sortKeys_sorted : ∀ l, SortedKeys (sortKeys l) := by
  intro l
  induction l with
  | nil => exact List.Pairwise.nil
  | cons a l ih => exact ordInsertKey_sorted a ih

theorem sorted_perm_nodup_eq :
    ∀ {x y : List (String × Json)}, x.Perm y → SortedKeys x → SortedKeys y →
      (x.map Prod.fst).Nodup → x = y := by
  intro x
  induction x with
  | nil =>
    intro y hp _ _ _
    exact (hp.nil_eq).symm ▸ rfl
  | cons a x1 ih =>
    intro y hp hsx hsy hn
    cases y with
    | nil => exact absurd hp.symm.nil_eq (by simp)
    | cons b y1 =>
      rcases List.pairwise_cons.mp hsx with ⟨hax, hsx1⟩
      rcases List.pairwise_cons.mp hsy with ⟨hby, hsy1⟩
      have hn2 : (a.1 :: x1.map Prod.fst).Nodup := by simpa using hn
      rcases List.nodup_cons.mp hn2 with ⟨hna, hn1⟩
      have hab : a = b := by
        rcases List.mem_cons.mp (hp.symm.subset (List.mem_cons_self b y1)) with rfl | hbx
        · rfl
        rcases List.mem_cons.mp (hp.subset (List.mem_cons_self a x1)) with hEq | hay
        · exact hEq
        have h1 : keyLe a b := hax b hbx
        have h2 : keyLe b a := hby a hay
        have hkeys : a.1.data = b.1.data := strLtB_eq_of_not _ _ h2 h1
        have hkey : a.1 = b.1 := congrArg String.mk hkeys
        have hmem : a.1 ∈ x1.map Prod.fst := by
          rw [hkey]
          exact List.mem_map_of_mem Prod.fst hbx
        exact absurd hmem hna
      subst hab
      have hp1 : x1.Perm y1 := hp.cons_inv
      rw [ih hp1 hsx1 hsy1 hn1]

theorem sortKeys_eq_of_perm {x y : List (String × Json)} (h : x.Perm y)
    (hn : (x.map Prod.fst).Nodup) : sortKeys x = sortKeys y := by
  refine sorted_perm_nodup_eq ?_ (sortKeys_sorted x) (sortKeys_sorted y) ?_
  · exact (sortKeys_perm x).trans (h.trans (sortKeys_perm y).symm)
  · exact (((sortKeys_perm x).map Prod.fst).nodup_iff).mpr hn

/-! Canonicalization respects the same-mapping relation. -/

theorem canonicalizeMembers_map :
    ∀ l, canonicalizeMembers l = l.map (fun kv => (kv.1, canonicalize kv.2)) := by
  intro l
  induction l with
  | nil => rfl
  | cons kv l ih =>
    cases kv with
    | mk k v => simp [canonicalizeMembers, ih]

theorem map_fst_canonicalizeMembers (l : List (String × Json)) :
    (canonicalizeMembers l).map Prod.fst = l.map Prod.fst := by
  rw [canonicalizeMembers_map, List.map_map]
  rfl

theorem sameMembers_keys :
    ∀ {l1 l2 : List (String × Json)}, SameMembers l1 l2 →
      l1.map Prod.fst = l2.map Prod.fst
  | _, _, .nil => rfl
  | _, _, .cons k h hs => by simp [sameMembers_keys hs]

mutual

theorem canonicalize_sm :
    ∀ {j1 j2 : Json}, SameMapping j1 j2 → canonicalize j1 = canonicalize j2
  | _, _, .null => rfl
  | _, _, .bool _ => rfl
  | _, _, .num _ => rfl
  | _, _, .str _ => rfl
  | _, _, .arr h => by
      show Json.arr _ = Json.arr _
      rw [canonicalizeList_se h]
  | _, _, @SameMapping.obj l1 mid l2 hn hm hp => by
      show Json.obj (sortKeys (canonicalizeMembers l1)) =
        Json.obj (sortKeys (canonicalizeMembers l2))
      have h1 : canonicalizeMembers l1 = canonicalizeMembers mid :=
        canonicalizeMembers_sme hm
      have h2 : (canonicalizeMembers mid).Perm (canonicalizeMembers l2) := by
        rw [canonicalizeMembers_map, canonicalizeMembers_map]
        exact hp.map _
      have hn2 : ((canonicalizeMembers mid).map Prod.fst).Nodup := by
        rw [map_fst_canonicalizeMembers, ← sameMembers_keys hm]
        exact hn
      rw [h1, sortKeys_eq_of_perm h2 hn2]

theorem canonicalizeList_se :
    ∀ {xs ys : List Json}, SameElems xs ys → canonicalizeList xs = canonicalizeList ys
  | _, _, .nil => rfl
  | _, _, .cons h hs => by
      show canonicalize _ :: canonicalizeList _ = canonicalize _ :: canonicalizeList _
      rw [canonicalize_sm h, canonicalizeList_se hs]

theorem canonicalizeMembers_sme :
    ∀ {l1 l2 : List (String × Json)}, SameMembers l1 l2 →
      canonicalizeMembers l1 = canonicalizeMembers l2
  | _, _, .nil => rfl
  | _, _, .cons k h hs => by
      show (k, canonicalize _) :: canonicalizeMembers _ =
        (k, canonicalize _) :: canonicalizeMembers _
      rw [canonicalize_sm h, canonicalizeMembers_sme hs]

end

theorem dumpsSorted_eq_of_sameMapping {j1 j2 : Json} (h : SameMapping j1 j2) :
    dumpsSorted j1 = dumpsSorted j2 := by
  unfold dumpsSorted
  rw [canonicalize_sm h]

/-! The shape of the canonical message. -/

theorem intercalate_three (sep a b c : String) :
    String.intercalate sep [a, b, c] = a ++ sep ++ b ++ sep ++ c := rfl

theorem intercalate_four (sep a b c d : String) :
    String.intercalate sep [a, b, c, d] = a ++ sep ++ b ++ sep ++ c ++ sep ++ d := rfl

theorem signMessage_eq (m p t : String) (b : Option String) :
    signMessage m p t b = pyUpper m ++ "|" ++ p ++ "|" ++ t ++ bodyPart b := by
  cases b with
  | none =>
    have e : signMessage m p t none = String.intercalate "|" [pyUpper m, p, t] := rfl
    rw [e, intercalate_three, show bodyPart none = "" from rfl, String.append_empty]
  | some s =>
    by_cases h : s = ""
    · subst h
      have e : signMessage m p t (some "") = String.intercalate "|" [pyUpper m, p, t] := rfl
      rw [e, intercalate_three, show bodyPart (some "") = "" from rfl, String.append_empty]
    · have e : signMessage m p t (some s) = String.intercalate "|" [pyUpper m, p, t, s] := by
        unfold signMessage messageParts
        simp [h]
      have e2 : bodyPart (some s) = "|" ++ s := by simp [bodyPart, h]
      rw [e, intercalate_four, e2, String.append_assoc]

theorem string_append_cancel_right {a b c : String} (h : a ++ c = b ++ c) : a = b := by
  have h2 := congrArg String.data h
  simp only [String.data_append] at h2
  exact congrArg String.mk (List.append_cancel_right h2)

theorem string_append_cancel_left {a b c : String} (h : a ++ b = a ++ c) : b = c := by
  have h2 := congrArg String.data h
  simp only [String.data_append] at h2
  exact congrArg String.mk (List.append_cancel_left h2)

theorem bodyPart_eq_iff {b b2 : Option String} (hne : b ≠ b2) :
    bodyPart b = bodyPart b2 ↔ (bodyPart b = "" ∧ bodyPart b2 = "") := by
  constructor
  · intro h
    cases b with
    | none =>
      exact ⟨rfl, h.symm⟩
    | some s =>
      cases b2 with
      | none => exact ⟨h, rfl⟩
      | some s2 =>
        by_cases h1 : s = "" <;> by_cases h2 : s2 = ""
        · subst h1; subst h2; exact absurd rfl hne
        · subst h1
          simp only [bodyPart, if_pos rfl, h2, if_false] at h
          have h3 := congrArg String.data h
          simp [String.data_append] at h3
        · subst h2
          simp only [bodyPart, if_pos rfl, h1, if_false] at h
          have h3 := congrArg String.data h
          simp [String.data_append] at h3
        · simp only [bodyPart, h1, h2, if_false] at h
          have h3 : s = s2 := string_append_cancel_left h
          subst h3
          exact absurd rfl hne
  · rintro ⟨h1, h2⟩
    rw [h1, h2]

/-! The claims. -/

/-- C1: the claim asserts that for a non-absent `jsonBody` the signed body
string and the transmitted body are byte-identical; the code signs the
sorted-key serialization but transmits the insertion-order serialization
produced by `requests` for the `json=` keyword, and the two differ on the
dict `{"b": 1, "a": 2}`.  This theorem evaluates both at that failing
input. -/
theorem c1_signed_body_differs_from_transmitted :
    signedBodyStr (some [("b", Json.num 1), ("a", Json.num 2)]) =
      some "\x7b\"a\": 2, \"b\": 1\x7d" ∧
    (sentRequest (ArchetypeClient.init "https://api.example.com" "key" "secret" 30)
        "POST" "/internal/archetype/x" none
        (some [("b", Json.num 1), ("a", Json.num 2)]) "1700000000").body =
      some "\x7b\"b\": 1, \"a\": 2\x7d" ∧
    signedBodyStr (some [("b", Json.num 1), ("a", Json.num 2)]) ≠
      (sentRequest (ArchetypeClient.init "https://api.example.com" "key" "secret" 30)
        "POST" "/internal/archetype/x" none
        (some [("b", Json.num 1), ("a", Json.num 2)]) "1700000000").body :=
  ⟨by decide, by decide, by decide⟩

/-- C2, counterexample: with the body present but equal to the empty
string, `_generate_signature` omits the fourth part (`if body:` is false),
while the claimed formula appends it, and the two digests differ. -/
theorem c2_counterexample :
    _generate_signature (ArchetypeClient.init "https://api.example.com" "key" "k" 30)
        "GET" "/a" "0" (some "") ≠
      specSignature "GET" "/a" "0" (some "") "k" := by decide

/-- C2, amended: the signature is the lowercase-hex HMAC-SHA256, keyed by
the UTF-8 secret, over the UTF-8 join with `|` of uppercased method, path,
timestamp, and — only if a body is present and non-empty — the body string
(an empty body string contributes nothing, like an absent body). -/
theorem c2_signature_formula (c : ArchetypeClient) (m p t : String) (b : Option String) :
    _generate_signature c m p t b = amendedSignature m p t b c.api_secret := by
  cases b with
  | none => rfl
  | some s =>
    by_cases h : s = ""
    · subst h; rfl
    · unfold _generate_signature amendedSignature signMessage messageParts
      simp [h]

/-- C3, counterexample: the inputs `("get", "/a", "0", none, "secret")` and
`("GET", "/a", "0", none, "secret")` differ in exactly one component (the
method), yet the two digests are identical, because `method.upper()` erases
the difference before signing. -/
theorem c3_counterexample :
    DiffExactlyOne "get" "/a" "0" none
        (ArchetypeClient.init "https://api.example.com" "key" "secret" 30).api_secret
        "GET" "/a" "0" none
        (ArchetypeClient.init "https://api.example.com" "key" "secret" 30).api_secret ∧
    _generate_signature (ArchetypeClient.init "https://api.example.com" "key" "secret" 30)
        "get" "/a" "0" none =
      _generate_signature (ArchetypeClient.init "https://api.example.com" "key" "secret" 30)
        "GET" "/a" "0" none :=
  ⟨by unfold DiffExactlyOne; decide, by decide⟩

/-- C3, amended: for inputs differing in exactly one of the five
components, the canonical message signed by `_generate_signature` changes
if and only if the change survives canonicalization — methods must differ
after uppercasing and bodies must differ in their message contribution;
two bodies contribute equally exactly when both are absent-or-empty; and
equal messages under equal secrets give equal digests (so for a case-only
method change or an absent-versus-empty body change the signature is
provably unchanged, while a digest collision between distinct messages is
the only way any other single-component change could leave the signature
equal). -/
theorem c3_sensitivity (c c2 : ArchetypeClient) (m p t m2 p2 t2 : String)
    (b b2 : Option String)
    (h : DiffExactlyOne m p t b c.api_secret m2 p2 t2 b2 c2.api_secret) :
    (signMessage m p t b = signMessage m2 p2 t2 b2 ↔
      (pyUpper m = pyUpper m2 ∧ p = p2 ∧ t = t2 ∧ bodyPart b = bodyPart b2)) ∧
    (b ≠ b2 → (bodyPart b = bodyPart b2 ↔ (bodyPart b = "" ∧ bodyPart b2 = ""))) ∧
    (c.api_secret = c2.api_secret → signMessage m p t b = signMessage m2 p2 t2 b2 →
      _generate_signature c m p t b = _generate_signature c2 m2 p2 t2 b2) := by
  refine ⟨?_, fun hne => bodyPart_eq_iff hne,
    fun hs hm => by unfold _generate_signature; rw [hs, hm]⟩
  rcases h with ⟨hm, hp, ht, hb, hs⟩ | ⟨hm, hp, ht, hb, hs⟩ | ⟨hm, hp, ht, hb, hs⟩ |
    ⟨hm, hp, ht, hb, hs⟩ | ⟨hm, hp, ht, hb, hs⟩
  · subst hp; subst ht; subst hb
    constructor
    · intro hmsg
      rw [signMessage_eq, signMessage_eq] at hmsg
      have e1 := string_append_cancel_right hmsg
      have e2 := string_append_cancel_right e1
      have e3 := string_append_cancel_right e2
      have e4 := string_append_cancel_right e3
      exact ⟨string_append_cancel_right e4, rfl, rfl, rfl⟩
    · rintro ⟨hu, -, -, -⟩
      rw [signMessage_eq, signMessage_eq, hu]
  · subst hm; subst ht; subst hb
    constructor
    · intro hmsg
      rw [signMessage_eq, signMessage_eq] at hmsg
      have e1 := string_append_cancel_right hmsg
      have e2 := string_append_cancel_right e1
      have e3 := string_append_cancel_right e2
      exact ⟨rfl, string_append_cancel_left e3, rfl, rfl⟩
    · rintro ⟨-, hpe, -, -⟩
      rw [signMessage_eq, signMessage_eq, hpe]
  · subst hm; subst hp; subst hb
    constructor
    · intro hmsg
      rw [signMessage_eq, signMessage_eq] at hmsg
      have e1 := string_append_cancel_right hmsg
      exact ⟨rfl, rfl, string_append_cancel_left e1, rfl⟩
    · rintro ⟨-, -, hte, -⟩
      rw [signMessage_eq, signMessage_eq, hte]
  · subst hm; subst hp; subst ht
    constructor
    · intro hmsg
      rw [signMessage_eq, signMessage_eq] at hmsg
      exact ⟨rfl, rfl, rfl, string_append_cancel_left hmsg⟩
    · rintro ⟨-, -, -, hbe⟩
      rw [signMessage_eq, signMessage_eq, hbe]
  · subst hm; subst hp; subst ht; subst hb
    exact ⟨fun _ => ⟨rfl, rfl, rfl, rfl⟩, fun _ => rfl⟩

/-- Witness for C3 amended: two concrete inputs differing only in the
path. -/
theorem c3_sensitivity_witness :
    DiffExactlyOne "GET" "/a" "1" none "sec" "GET" "/b" "1" none "sec" ∧
    ((signMessage "GET" "/a" "1" none = signMessage "GET" "/b" "1" none ↔
      (pyUpper "GET" = pyUpper "GET" ∧ "/a" = "/b" ∧ ("1" : String) = "1" ∧
        bodyPart none = bodyPart none)) ∧
    ((none : Option String) ≠ none →
      (bodyPart none = bodyPart none ↔ (bodyPart none = "" ∧ bodyPart none = ""))) ∧
    ((ArchetypeClient.init "u" "k" "sec" 30).api_secret =
        (ArchetypeClient.init "u" "k" "sec" 30).api_secret →
      signMessage "GET" "/a" "1" none = signMessage "GET" "/b" "1" none →
      _generate_signature (ArchetypeClient.init "u" "k" "sec" 30) "GET" "/a" "1" none =
        _generate_signature (ArchetypeClient.init "u" "k" "sec" 30) "GET" "/b" "1" none)) :=
  ⟨by unfold DiffExactlyOne; decide,
   c3_sensitivity (ArchetypeClient.init "u" "k" "sec" 30)
     (ArchetypeClient.init "u" "k" "sec" 30) "GET" "/a" "1" "GET" "/b" "1" none none
     (by unfold DiffExactlyOne; decide)⟩

/-- C4: a response with status 401, whatever its body, makes
`_make_request` fail with the `AuthenticationError` whose message is
exactly "Authentication failed: Invalid API key or signature" and whose
status code is 401. -/
theorem c4_auth_error (c : ArchetypeClient) (method path : String)
    (params : Option (List (String × String)))
    (json_data : Option (List (String × Json))) (timestamp : String)
    (respond : SentRequest → HttpOutcome) (resp : HttpResponse)
    (hresp : respond (sentRequest c method path params json_data timestamp) = .response resp)
    (h401 : resp.status_code = 401) :
    _make_request c method path params json_data timestamp respond =
      .error (AuthenticationError "Authentication failed: Invalid API key or signature") ∧
    (AuthenticationError "Authentication failed: Invalid API key or signature").status_code
      = 401 ∧
    (AuthenticationError "Authentication failed: Invalid API key or signature").message =
      .str "Authentication failed: Invalid API key or signature" := by
  refine ⟨?_, rfl, rfl⟩
  unfold _make_request
  rw [hresp]
  simp [h401]

/-- Witness for C4 at a concrete 401 response carrying a body. -/
theorem c4_auth_error_witness :
    ((fun _ => HttpOutcome.response
        (HttpResponse.mk 401 (some [("errmsg", Json.str "irrelevant")])) :
        SentRequest → HttpOutcome)
      (sentRequest (ArchetypeClient.init "u" "k" "s" 30) "GET" "/x" none none "1") =
      HttpOutcome.response
        (HttpResponse.mk 401 (some [("errmsg", Json.str "irrelevant")]))) ∧
    (HttpResponse.mk 401 (some [("errmsg", Json.str "irrelevant")])).status_code = 401 ∧
    _make_request (ArchetypeClient.init "u" "k" "s" 30) "GET" "/x" none none "1"
      (fun _ => HttpOutcome.response
        (HttpResponse.mk 401 (some [("errmsg", Json.str "irrelevant")]))) =
      .error (AuthenticationError "Authentication failed: Invalid API key or signature") :=
  ⟨rfl, rfl,
   (c4_auth_error (ArchetypeClient.init "u" "k" "s" 30) "GET" "/x" none none "1"
     (fun _ => HttpOutcome.response
       (HttpResponse.mk 401 (some [("errmsg", Json.str "irrelevant")])))
     (HttpResponse.mk 401 (some [("errmsg", Json.str "irrelevant")])) rfl rfl).1⟩

/-- C5: a response with status at least 400 and different from 401 makes
`_make_request` fail with an `ArchetypeAPIError` carrying the response
status, a message read from the `errmsg` field of the parsed body (the
empty mapping when the body is empty) defaulting to "API error: <status>",
and an error code read from `errorcode` when present. -/
theorem c5_api_error (c : ArchetypeClient) (method path : String)
    (params : Option (List (String × String)))
    (json_data : Option (List (String × Json))) (timestamp : String)
    (respond : SentRequest → HttpOutcome) (resp : HttpResponse)
    (hresp : respond (sentRequest c method path params json_data timestamp) = .response resp)
    (hge : 400 ≤ resp.status_code) (hne : resp.status_code ≠ 401) :
    _make_request c method path params json_data timestamp respond =
      .error { message := ((resp.content.getD []).lookup "errmsg").getD
                 (.str ("API error: " ++ toString resp.status_code)),
               status_code := resp.status_code,
               error_code := (resp.content.getD []).lookup "errorcode",
               is_auth := false } := by
  unfold _make_request
  rw [hresp]
  simp [hne, hge]

/-- Witness for C5 at the spec example: status 404 with body
`{"errmsg": "not found", "errorcode": 42}` yields message "not found",
status 404, error code 42. -/
theorem c5_api_error_witness :
    ((fun _ => HttpOutcome.response (HttpResponse.mk 404
        (some [("errmsg", Json.str "not found"), ("errorcode", Json.num 42)])) :
        SentRequest → HttpOutcome)
      (sentRequest (ArchetypeClient.init "u" "k" "s" 30) "GET" "/x" none none "1") =
      HttpOutcome.response (HttpResponse.mk 404
        (some [("errmsg", Json.str "not found"), ("errorcode", Json.num 42)]))) ∧
    400 ≤ (HttpResponse.mk 404
      (some [("errmsg", Json.str "not found"), ("errorcode", Json.num 42)])).status_code ∧
    (HttpResponse.mk 404
      (some [("errmsg", Json.str "not found"), ("errorcode", Json.num 42)])).status_code
      ≠ 401 ∧
    _make_request (ArchetypeClient.init "u" "k" "s" 30) "GET" "/x" none none "1"
      (fun _ => HttpOutcome.response (HttpResponse.mk 404
        (some [("errmsg", Json.str "not found"), ("errorcode", Json.num 42)]))) =
      .error { message := Json.str "not found", status_code := 404,
               error_code := some (Json.num 42), is_auth := false } :=
  ⟨rfl, by decide, by decide,
   c5_api_error (ArchetypeClient.init "u" "k" "s" 30) "GET" "/x" none none "1"
     (fun _ => HttpOutcome.response (HttpResponse.mk 404
       (some [("errmsg", Json.str "not found"), ("errorcode", Json.num 42)])))
     (HttpResponse.mk 404
       (some [("errmsg", Json.str "not found"), ("errorcode", Json.num 42)]))
     rfl (by decide) (by decide)⟩

/-- C6: two JSON bodies that are the same mapping up to key insertion
order at every nesting level get the identical canonical encoding, the
identical signed body string, and the identical signature. -/
theorem c6_order_independence {l1 l2 : List (String × Json)}
    (h : SameMapping (.obj l1) (.obj l2)) :
    dumpsSorted (.obj l1) = dumpsSorted (.obj l2) ∧
    signedBodyStr (some l1) = signedBodyStr (some l2) ∧
    ∀ (c : ArchetypeClient) (m p t : String),
      _generate_signature c m p t (signedBodyStr (some l1)) =
        _generate_signature c m p t (signedBodyStr (some l2)) := by
  have hd : dumpsSorted (.obj l1) = dumpsSorted (.obj l2) :=
    dumpsSorted_eq_of_sameMapping h
  have hempty : l1 = [] ↔ l2 = [] := by
    cases h with
    | obj hn hm hp =>
      constructor
      · intro h1
        subst h1
        cases hm
        exact hp.nil_eq.symm
      · intro h2
        subst h2
        have hmid := hp.eq_nil
        subst hmid
        cases hm
        rfl
  have hb : signedBodyStr (some l1) = signedBodyStr (some l2) := by
    cases l1 with
    | nil =>
      have h2 : l2 = [] := hempty.mp rfl
      rw [h2]
    | cons kv l =>
      cases l2 with
      | nil => exact absurd (hempty.mpr rfl) (by simp)
      | cons kv2 l2a => exact congrArg some hd
  exact ⟨hd, hb, fun c m p t => by rw [hb]⟩

/-- Witness for C6: the dict `{"b": 1, "a": 2}` in its two insertion
orders. -/
theorem c6_order_independence_witness :
    SameMapping (.obj [("b", Json.num 1), ("a", Json.num 2)])
        (.obj [("a", Json.num 2), ("b", Json.num 1)]) ∧
    dumpsSorted (.obj [("b", Json.num 1), ("a", Json.num 2)]) =
      dumpsSorted (.obj [("a", Json.num 2), ("b", Json.num 1)]) := by
  have hsm : SameMapping (.obj [("b", Json.num 1), ("a", Json.num 2)])
      (.obj [("a", Json.num 2), ("b", Json.num 1)]) :=
    SameMapping.obj (by decide)
      (SameMembers.cons "b" (SameMapping.num 1)
        (SameMembers.cons "a" (SameMapping.num 2) SameMembers.nil))
      (List.Perm.swap ("a", Json.num 2) ("b", Json.num 1) [])
  exact ⟨hsm, (c6_order_independence hsm).1⟩

/-- C7: the digest is a pure function of method, path, timestamp, body and
secret — any two clients with the same secret, whatever their other state,
return the same digest on the same inputs. -/
theorem c7_signature_pure (c c2 : ArchetypeClient) (h : c.api_secret = c2.api_secret)
    (m p t : String) (b : Option String) :
    _generate_signature c m p t b = _generate_signature c2 m p t b := by
  unfold _generate_signature
  rw [h]

/-- Witness for C7: two clients differing in URL, key and timeout but
sharing the secret. -/
theorem c7_signature_pure_witness :
    (ArchetypeClient.init "https://a" "key1" "sec" 30).api_secret =
      (ArchetypeClient.init "https://b" "key2" "sec" 60).api_secret ∧
    _generate_signature (ArchetypeClient.init "https://a" "key1" "sec" 30)
        "GET" "/x" "1" none =
      _generate_signature (ArchetypeClient.init "https://b" "key2" "sec" 60)
        "GET" "/x" "1" none :=
  ⟨rfl, c7_signature_pure (ArchetypeClient.init "https://a" "key1" "sec" 30)
    (ArchetypeClient.init "https://b" "key2" "sec" 60) rfl "GET" "/x" "1" none⟩

/-- C8: the query parameters never enter the signed message — two requests
differing only in `params` carry the same X-Signature header value. -/
theorem c8_params_not_signed (c : ArchetypeClient) (m p : String)
    (jd : Option (List (String × Json))) (t : String)
    (q1 q2 : Option (List (String × String))) :
    ((sentRequest c m p q1 jd t).headers).lookup "X-Signature" =
    ((sentRequest c m p q2 jd t).headers).lookup "X-Signature" := rfl

/-- C9: construction normalizes the base URL by stripping the trailing
slashes once, and every request URL is exactly the normalized base URL
concatenated with the path. -/
theorem c9_url_concatenation (base key secret : String) (n : Nat) (m p : String)
    (q : Option (List (String × String))) (jd : Option (List (String × Json)))
    (t : String) :
    (ArchetypeClient.init base key secret n).base_url = rstripSlashes base ∧
    rstripSlashes (base ++ "/") = rstripSlashes base ∧
    (sentRequest (ArchetypeClient.init base key secret n) m p q jd t).url =
      rstripSlashes base ++ p := by
  refine ⟨rfl, ?_, rfl⟩
  have h1 : (base ++ "/").data.reverse = (Char.ofNat 47) :: base.data.reverse := by
    rw [String.data_append, List.reverse_append]
    rfl
  unfold rstripSlashes
  rw [h1]
  rfl

/-- C10: an empty body string is treated exactly like an absent body by
`_generate_signature`; the digests coincide. -/
theorem c10_empty_body_as_absent (c : ArchetypeClient) (m p t : String) :
    _generate_signature c m p t (some "") = _generate_signature c m p t none := rfl

end Fortuna
